import Mathlib

/-!
Shallow embedding of the camera/motion core of the three-js-template
repository: the `CameraController` (WASD free-fly movement, animated preset
transitions, object following), the `Planet` orbital kinematics, the
`GameLoop` fixed-step accumulator, and the `SpaceScene` click-selection
logic.  Real-number fields model the JavaScript float arithmetic; JS objects
whose properties are read dynamically are modelled as `String → Bool` maps
(a missing property reads as `undefined`, i.e. falsy).
-/

namespace ThreeTemplate

/-! ### GameLoop (src: GameLoop.loop) — fixed-step accumulator over ℚ -/

/-- One pass of the inner `while (accumulator >= frameTime)` loop of
`GameLoop.loop`: returns the remaining accumulator and the number of
fixed-step update callbacks invoked.  The extra `0 < h` conjunct in the
guard is a termination artifact: with a non-positive fixed step the JS
`while` loop would never terminate, so that case is modelled as taking no
steps. -/
def drain (h : ℚ) (acc : ℚ) : ℚ × ℕ :=
  if hc : 0 < h ∧ h ≤ acc then
    let p := drain h (acc - h)
    (p.1, p.2 + 1)
  else
    (acc, 0)
termination_by (⌈acc / h⌉).toNat
decreasing_by
  have hh : 0 < h := hc.1
  have hge : h ≤ acc := hc.2
  have hsub : (acc - h) / h = acc / h - 1 := by
    field_simp
  have hceil : ⌈(acc - h) / h⌉ = ⌈acc / h⌉ - 1 := by
    rw [hsub, Int.ceil_sub_one]
  have hpos2 : 0 < acc / h := div_pos (lt_of_lt_of_le hh hge) hh
  have h1 : (1 : ℤ) ≤ ⌈acc / h⌉ := Int.one_le_ceil_iff.mpr hpos2
  rw [hceil]
  omega

/-- One raw-frame callback of `GameLoop.loop`, after the timestamp
subtraction: clamps the raw delta to 50 ms, adds it to the accumulator and
runs the fixed-step while loop.  State is (accumulator, total update-callback
invocations so far). -/
def gameLoopTick (h : ℚ) (st : ℚ × ℕ) (rawDelta : ℚ) : ℚ × ℕ :=
  let d := min rawDelta 50
  let p := drain h (st.1 + d)
  (p.1, st.2 + p.2)

/-! ### three.js vector / quaternion math used by the controller -/

/-- three.js `Vector3` with real components. -/
@[ext]
structure Vec3 where
  x : ℝ
  y : ℝ
  z : ℝ

instance : Add Vec3 := ⟨fun a b => ⟨a.x + b.x, a.y + b.y, a.z + b.z⟩⟩

instance : Sub Vec3 := ⟨fun a b => ⟨a.x - b.x, a.y - b.y, a.z - b.z⟩⟩

instance : Zero Vec3 := ⟨⟨0, 0, 0⟩⟩

/-- three.js `Vector3.multiplyScalar`. -/
def Vec3.smul (r : ℝ) (v : Vec3) : Vec3 := ⟨r * v.x, r * v.y, r * v.z⟩

/-- three.js `Vector3.length`. -/
noncomputable def vlength (v : Vec3) : ℝ :=
  Real.sqrt (v.x * v.x + v.y * v.y + v.z * v.z)

/-- three.js `Vector3.normalize`: `divideScalar(length() || 1)` — the JS
`|| 1` makes a zero length divide by one instead. -/
noncomputable def Vec3.normalize (v : Vec3) : Vec3 :=
  let l := vlength v
  Vec3.smul (1 / (if l = 0 then 1 else l)) v

/-- three.js `Vector3.lerpVectors(v1, v2, alpha)`:
componentwise `v1 + (v2 - v1) * alpha`. -/
def lerpVectors (v1 v2 : Vec3) (alpha : ℝ) : Vec3 :=
  ⟨v1.x + (v2.x - v1.x) * alpha,
   v1.y + (v2.y - v1.y) * alpha,
   v1.z + (v2.z - v1.z) * alpha⟩

/-- three.js `Quaternion`. -/
structure Quat where
  x : ℝ
  y : ℝ
  z : ℝ
  w : ℝ

/-- three.js `Vector3.applyQuaternion`:
`t = 2 * cross(q.xyz, v); v + q.w * t + cross(q.xyz, t)`. -/
def applyQuaternion (q : Quat) (v : Vec3) : Vec3 :=
  let tx := 2 * (q.y * v.z - q.z * v.y)
  let ty := 2 * (q.z * v.x - q.x * v.z)
  let tz := 2 * (q.x * v.y - q.y * v.x)
  ⟨v.x + q.w * tx + q.y * tz - q.z * ty,
   v.y + q.w * ty + q.z * tx - q.x * tz,
   v.z + q.w * tz + q.x * ty - q.y * tx⟩

/-! ### InputManager (src: InputManager.getWASDState) -/

/-- `InputManager.getWASDState` returns the JS object
`{ w, a, s, d }` keyed by those four property names.  The returned object is
modelled as a property map: reading any property other than `"w"`, `"a"`,
`"s"`, `"d"` yields JS `undefined`, i.e. falsy. -/
def getWASDState (keys : String → Bool) : String → Bool :=
  fun property =>
    if property = "w" then keys "KeyW"
    else if property = "a" then keys "KeyA"
    else if property = "s" then keys "KeyS"
    else if property = "d" then keys "KeyD"
    else false

/-! ### CameraController (src: CameraController) -/

/-- A camera preset `{ position, target }`. -/
structure Preset where
  position : Vec3
  target : Vec3

/-- The local state captured by the closure of
`CameraController.animateToPosition`'s `animate` callback. -/
structure Transition where
  startPosition : Vec3
  startTarget : Vec3
  endPosition : Vec3
  endTarget : Vec3
  startTime : ℝ

/-- Mutable state of `CameraController` (plus the in-flight animation
closure, if any, and the `orbitControls.target` it mutates). -/
structure CamState where
  cameraPos : Vec3
  target : Vec3
  isAnimating : Bool
  followTarget : Option ℕ
  followOffset : Vec3
  followSpeed : ℝ
  controlMode : String
  moveSpeed : ℝ
  fastMoveMultiplier : ℝ
  wasdEnabled : Bool
  animationDuration : ℝ
  presets : List (String × Preset)
  transition : Option Transition

/-- The `presets` table built in the `CameraController` constructor. -/
def defaultPresets : List (String × Preset) :=
  [("overview", ⟨⟨0, 100, 200⟩, ⟨0, 0, 0⟩⟩),
   ("sun", ⟨⟨0, 20, 50⟩, ⟨0, 0, 0⟩⟩),
   ("earth", ⟨⟨45, 10, 20⟩, ⟨45, 0, 0⟩⟩),
   ("saturn", ⟨⟨110, 30, 60⟩, ⟨110, 0, 0⟩⟩)]

/-- Own-property part of the JS lookup `this.presets[presetName]`: searches
only the keys written into the preset table itself.  The full JS index
semantics, including what the object literal inherits from
`Object.prototype`, is `presetIndex` below. -/
def findPreset (name : String) : List (String × Preset) → Option Preset
  | [] => none
  | (k, p) :: rest => if k = name then some p else findPreset name rest

/-- The property names every plain JS object literal inherits from
`Object.prototype`: indexing the preset table with one of these yields a
truthy non-preset value (a function, or the prototype object itself for
`__proto__`) instead of `undefined`. -/
def objectPrototypeKeys : List String :=
  ["constructor", "hasOwnProperty", "isPrototypeOf", "propertyIsEnumerable",
   "toLocaleString", "toString", "valueOf", "__proto__", "__defineGetter__",
   "__defineSetter__", "__lookupGetter__", "__lookupSetter__"]

/-- Result of the JS property read `this.presets[presetName]`. -/
inductive PresetValue where
  | preset (p : Preset)
  | protoFn
  | undef

/-- JS `this.presets[presetName]`: an own key yields its preset; a name the
object literal inherits from `Object.prototype` yields a truthy non-preset
value; any other name yields `undefined`. -/
def presetIndex (name : String) (table : List (String × Preset)) : PresetValue :=
  match findPreset name table with
  | some p => PresetValue.preset p
  | none =>
    if name ∈ objectPrototypeKeys then PresetValue.protoFn
    else PresetValue.undef

/-- Observable outcome of `CameraController.animateToPreset`: the warning
was logged and the call returned without animating; or the truthy inherited
lookup skipped the warning branch and `new THREE.Vector3(...preset.position)`
threw a TypeError (the async call's promise rejects, unreported); or a
transition was started. -/
inductive PresetOutcome where
  | warned
  | typeError
  | started

/-- `CameraController.easeInOutCubic`. -/
noncomputable def easeInOutCubic (t : ℝ) : ℝ :=
  if t < 1 / 2 then 4 * t * t * t
  else (t - 1) * (2 * t - 2) * (2 * t - 2) + 1

/-- `CameraController.stopFollowing`. -/
def stopFollowing (s : CamState) : CamState :=
  { s with followTarget := none }

/-- `CameraController.followObject(target, offset)`: binds the follow
target; an explicit offset overwrites `followOffset`. -/
def followObject (s : CamState) (tgt : ℕ) (offset : Option Vec3) : CamState :=
  { s with followTarget := some tgt
           followOffset := offset.getD s.followOffset }

/-- One invocation of the `animate` closure inside
`CameraController.animateToPosition`, at absolute time `now`.  When no
transition closure is live (`transition = none`) nothing runs. -/
noncomputable def animateStep (s : CamState) (now : ℝ) : CamState :=
  match s.transition with
  | none => s
  | some tr =>
    let elapsed := now - tr.startTime
    let progress := min (elapsed / s.animationDuration) 1
    let easeProgress := easeInOutCubic progress
    let pos := lerpVectors tr.startPosition tr.endPosition easeProgress
    let tgt := lerpVectors tr.startTarget tr.endTarget easeProgress
    if progress < 1 then
      { s with cameraPos := pos, target := tgt }
    else
      { s with cameraPos := pos, target := tgt,
               isAnimating := false, transition := none }

/-- `CameraController.animateToPosition(targetPosition, targetLookAt)` at
absolute time `now`.  The returned flag is `true` exactly when the promise
resolved immediately because `isAnimating` was already set.  Otherwise the
start pose is captured, following stops, and the `animate` closure runs once
synchronously. -/
noncomputable def animateToPosition (s : CamState)
    (targetPosition targetLookAt : Vec3) (now : ℝ) : CamState × Bool :=
  if s.isAnimating then
    (s, true)
  else
    let s1 := stopFollowing { s with isAnimating := true }
    let tr : Transition :=
      ⟨s.cameraPos, s.target, targetPosition, targetLookAt, now⟩
    let s2 := { s1 with transition := some tr }
    (animateStep s2 now, false)

/-- `CameraController.animateToPreset(presetName)` at absolute time `now`,
with JS property semantics for the `this.presets[presetName]` read.  An
`undefined` result takes the `if (!preset)` branch: the warning is logged
and the call returns with the state untouched.  A truthy value inherited
from `Object.prototype` skips that branch and the spread in
`new THREE.Vector3(...preset.position)` throws a TypeError before
`animateToPosition` runs, so the state is also untouched but the promise
rejects with no warning.  An own preset starts the transition. -/
noncomputable def animateToPreset (s : CamState) (name : String) (now : ℝ) :
    CamState × PresetOutcome :=
  match presetIndex name s.presets with
  | PresetValue.undef => (s, PresetOutcome.warned)
  | PresetValue.protoFn => (s, PresetOutcome.typeError)
  | PresetValue.preset p =>
    ((animateToPosition s p.position p.target now).1, PresetOutcome.started)

/-- The `this.direction` vector composed by
`CameraController.updateWASDMovement`: camera-rotated forward/right, world
up, summed according to the flags read from the `getWASDState` object and
the Space/Ctrl keys. -/
def wasdDirection (q : Quat) (keys : String → Bool) : Vec3 :=
  let wasdState := getWASDState keys
  let forward := applyQuaternion q ⟨0, 0, -1⟩
  let right := applyQuaternion q ⟨1, 0, 0⟩
  let up : Vec3 := ⟨0, 1, 0⟩
  let d0 : Vec3 := ⟨0, 0, 0⟩
  let d1 := if wasdState "forward" then d0 + forward else d0
  let d2 := if wasdState "backward" then d1 - forward else d1
  let d3 := if wasdState "left" then d2 - right else d2
  let d4 := if wasdState "right" then d3 + right else d3
  let d5 := if keys "Space" then d4 + up else d4
  let d6 := if keys "ControlLeft" || keys "ControlRight" then d5 - up else d5
  d6

/-- `CameraController.updateWASDMovement(deltaTime)` with the camera
orientation `q` and the current key set.  Moves only when the composed
direction has positive length; in `'orbit'` control mode the orbit-controls
target is translated by the same movement vector. -/
noncomputable def updateWASDMovement (s : CamState) (q : Quat)
    (keys : String → Bool) (dt : ℝ) : CamState :=
  let dir := wasdDirection q keys
  let isShiftPressed := keys "ShiftLeft" || keys "ShiftRight"
  if 0 < vlength dir then
    let currentSpeed :=
      if isShiftPressed then s.moveSpeed * s.fastMoveMultiplier else s.moveSpeed
    let movement := Vec3.smul (currentSpeed * dt) dir.normalize
    { s with cameraPos := s.cameraPos + movement,
             target := if s.controlMode = "orbit" then s.target + movement
                       else s.target }
  else s

/-- `CameraController.updateFollowTarget` with the followed objects' world
positions given by `worldPos`.  Uses three.js `Vector3.lerp`, whose formula
is `lerpVectors` applied to the vector itself. -/
noncomputable def updateFollowTarget (s : CamState) (worldPos : ℕ → Vec3) :
    CamState :=
  match s.followTarget with
  | none => s
  | some tgt =>
    let targetWorldPosition := worldPos tgt
    let desiredPosition := targetWorldPosition + s.followOffset
    { s with cameraPos := lerpVectors s.cameraPos desiredPosition s.followSpeed,
             target := lerpVectors s.target targetWorldPosition s.followSpeed }

/-- `CameraController.update(deltaTime)` (with the input manager present):
WASD movement when enabled, then follow-target smoothing only when a follow
target is bound and no animation is in flight. -/
noncomputable def camUpdate (s : CamState) (q : Quat) (keys : String → Bool)
    (worldPos : ℕ → Vec3) (dt : ℝ) : CamState :=
  let s1 := if s.wasdEnabled then updateWASDMovement s q keys dt else s
  if s1.followTarget.isSome && !s1.isAnimating then
    updateFollowTarget s1 worldPos
  else s1

/-- The `animate` closure of transition `tr` is live with duration `d`. -/
def InFlight (tr : Transition) (d : ℝ) (s : CamState) : Prop :=
  s.transition = some tr ∧ s.isAnimating = true ∧ s.animationDuration = d

/-- The transition `tr` has terminated: end pose reached, flag cleared. -/
def DoneAt (tr : Transition) (s : CamState) : Prop :=
  s.cameraPos = tr.endPosition ∧ s.target = tr.endTarget ∧
  s.isAnimating = false ∧ s.transition = none

/-- A `CameraController` fresh from its constructor (camera at the origin),
used as a concrete state by the witnesses below. -/
noncomputable def baseState : CamState where
  cameraPos := ⟨0, 0, 0⟩
  target := ⟨0, 0, 0⟩
  isAnimating := false
  followTarget := none
  followOffset := ⟨10, 10, 10⟩
  followSpeed := 1 / 50
  controlMode := "orbit"
  moveSpeed := 50
  fastMoveMultiplier := 3
  wasdEnabled := true
  animationDuration := 2000
  presets := defaultPresets
  transition := none

/-- Key set with only the physical `W` key held. -/
def keyWOnly : String → Bool := fun k => k == "KeyW"

/-- Key set with no key held. -/
def noKeys : String → Bool := fun _ => false

/-- The transition captured when `animateToPosition` is called on
`baseState` with end position `(100,0,0)`, end target `(0,0,0)`, at time
0. -/
def trA : Transition := ⟨⟨0, 0, 0⟩, ⟨0, 0, 0⟩, ⟨100, 0, 0⟩, ⟨0, 0, 0⟩, 0⟩

/-- Controller state right after starting transition `trA` on
`baseState`. -/
noncomputable def stateA : CamState :=
  (animateToPosition baseState ⟨100, 0, 0⟩ ⟨0, 0, 0⟩ 0).1

/-- Controller state with `trA` mid-flight: one `animate` frame at
t = 1000 ms, halfway through the 2000 ms duration. -/
noncomputable def stateMid : CamState := animateStep stateA 1000

/-! ### Planet (src: Planet.update) -/

/-- The orbit descriptor `{ radius, speed }` of a planet config. -/
structure Orbit where
  radius : ℝ
  speed : ℝ

/-- Static part of a `Planet`: intrinsic rotation rates and the optional
orbit descriptor. -/
structure PlanetConfig where
  rotationRate : Vec3
  orbit : Option Orbit

/-- Mutable per-planet state touched by `Planet.update`. -/
structure PlanetState where
  meshRotation : Vec3
  orbitPos : Vec3
  time : ℝ

/-- The orbital position formula of `Planet.update`:
`(cos(t·speed)·radius, 0, sin(t·speed)·radius)`. -/
noncomputable def orbitalPosition (o : Orbit) (t : ℝ) : Vec3 :=
  ⟨Real.cos (t * o.speed) * o.radius, 0, Real.sin (t * o.speed) * o.radius⟩

/-- `Planet.update(deltaTime, totalTime)`: stores the time, increments the
spin rotation, and — when an orbit descriptor exists — sets the orbit-group
position as an absolute function of `totalTime`. -/
noncomputable def Planet.update (cfg : PlanetConfig) (s : PlanetState)
    (deltaTime totalTime : ℝ) : PlanetState :=
  let s1 := { s with time := totalTime,
                     meshRotation :=
                       ⟨s.meshRotation.x + cfg.rotationRate.x * deltaTime,
                        s.meshRotation.y + cfg.rotationRate.y * deltaTime,
                        s.meshRotation.z + cfg.rotationRate.z * deltaTime⟩ }
  match cfg.orbit with
  | none => s1
  | some o => { s1 with orbitPos := orbitalPosition o totalTime }

/-! ### SpaceScene picking/selection (src: SpaceScene.onMouseClick) -/

/-- Selection-relevant state of `SpaceScene`: the number of planets, the
`selectedPlanet` reference (as an index) and each planet's `isSelected`
flag. -/
structure SceneState where
  numPlanets : ℕ
  selectedPlanet : Option ℕ
  isSelected : ℕ → Bool

/-- `Planet.setSelected` on planet `i` of the scene. -/
def SpaceScene.setSelected (s : SceneState) (i : ℕ) (b : Bool) : SceneState :=
  { s with isSelected := fun j => if j = i then b else s.isSelected j }

/-- `SpaceScene.deselectPlanet`: clears the highlight of the previously
selected planet (if any) and drops the reference. -/
def SpaceScene.deselectPlanet (s : SceneState) : SceneState :=
  match s.selectedPlanet with
  | some i => { SpaceScene.setSelected s i false with selectedPlanet := none }
  | none => s

/-- `SpaceScene.selectPlanet(planet)`: first deselects the previous planet,
then records and highlights the new one. -/
def SpaceScene.selectPlanet (s : SceneState) (i : ℕ) : SceneState :=
  let s1 := SpaceScene.deselectPlanet s
  { SpaceScene.setSelected s1 i true with selectedPlanet := some i }

/-- One ray/mesh intersection record, referencing the planet whose mesh was
hit and the intersection distance. -/
structure Hit where
  object : ℕ
  distance : ℝ

/-- `SpaceScene.onMouseClick`, given the intersection list.  Modelled from
the spec: the raycast against the current set of body meshes is an external
three.js collaborator that returns the intersections with the planet meshes
sorted nearest-first; the sortedness is a hypothesis of the theorems below.
A nonempty list selects the planet owning the first hit mesh (the code's
`planets.find` succeeds exactly when the hit references one of the scene's
planets); an empty list clears the selection. -/
def SpaceScene.onMouseClick (s : SceneState) (hits : List Hit) : SceneState :=
  match hits with
  | [] => SpaceScene.deselectPlanet s
  | hit :: _ =>
    if hit.object < s.numPlanets then SpaceScene.selectPlanet s hit.object
    else s

/-! ### Helper lemmas -/

theorem easeInOutCubic_one : easeInOutCubic 1 = 1 := by
  unfold easeInOutCubic
  norm_num

theorem lerpVectors_one (v w : Vec3) : lerpVectors v w 1 = w := by
  unfold lerpVectors
  ext <;> simp

theorem animateStep_none {s : CamState} (h : s.transition = none) (t : ℝ) :
    animateStep s t = s := by
  cases s with
  | mk cp tg ia ft fo fs cm ms fm we ad pr tr =>
    simp only at h
    subst h
    rfl

theorem animateStep_some {s : CamState} {tr : Transition}
    (h : s.transition = some tr) (t : ℝ) :
    animateStep s t =
      (if min ((t - tr.startTime) / s.animationDuration) 1 < 1 then
        { s with
          cameraPos := lerpVectors tr.startPosition tr.endPosition
            (easeInOutCubic (min ((t - tr.startTime) / s.animationDuration) 1)),
          target := lerpVectors tr.startTarget tr.endTarget
            (easeInOutCubic (min ((t - tr.startTime) / s.animationDuration) 1)) }
      else
        { s with
          cameraPos := lerpVectors tr.startPosition tr.endPosition
            (easeInOutCubic (min ((t - tr.startTime) / s.animationDuration) 1)),
          target := lerpVectors tr.startTarget tr.endTarget
            (easeInOutCubic (min ((t - tr.startTime) / s.animationDuration) 1)),
          isAnimating := false, transition := none }) := by
  cases s with
  | mk cp tg ia ft fo fs cm ms fm we ad pr trn =>
    simp only at h
    subst h
    rfl

theorem animateStep_done {tr : Transition} {s : CamState} (h : DoneAt tr s)
    (t : ℝ) : animateStep s t = s :=
  animateStep_none h.2.2.2 t

theorem animateStep_cases {tr : Transition} {d : ℝ} {s : CamState}
    (h : InFlight tr d s) (t : ℝ) :
    InFlight tr d (animateStep s t) ∨ DoneAt tr (animateStep s t) := by
  obtain ⟨htr, hanim, hdur⟩ := h
  rw [animateStep_some htr t]
  by_cases hp : min ((t - tr.startTime) / s.animationDuration) 1 < 1
  · left
    rw [if_pos hp]
    exact ⟨htr, hanim, hdur⟩
  · right
    rw [if_neg hp]
    have hple : min ((t - tr.startTime) / s.animationDuration) 1 ≤ 1 :=
      min_le_right _ _
    have hpeq : min ((t - tr.startTime) / s.animationDuration) 1 = 1 :=
      le_antisymm hple (not_lt.mp hp)
    rw [hpeq, easeInOutCubic_one, lerpVectors_one, lerpVectors_one]
    exact ⟨rfl, rfl, rfl, rfl⟩

theorem animateStep_terminal {tr : Transition} {d : ℝ} {s : CamState}
    (hd : 0 < d) (h : InFlight tr d s) (t : ℝ)
    (ht : tr.startTime + d ≤ t) : DoneAt tr (animateStep s t) := by
  obtain ⟨htr, hanim, hdur⟩ := h
  rw [animateStep_some htr t]
  have helapsed : d ≤ t - tr.startTime := by linarith
  have hone : (1 : ℝ) ≤ (t - tr.startTime) / s.animationDuration := by
    rw [hdur]
    exact (one_le_div hd).mpr helapsed
  have hpeq : min ((t - tr.startTime) / s.animationDuration) 1 = 1 :=
    min_eq_right hone
  rw [hpeq]
  rw [if_neg (by norm_num)]
  rw [easeInOutCubic_one, lerpVectors_one, lerpVectors_one]
  exact ⟨rfl, rfl, rfl, rfl⟩

theorem foldl_animateStep_done {tr : Transition} {s : CamState}
    (h : DoneAt tr s) (ts : List ℝ) : DoneAt tr (ts.foldl animateStep s) := by
  induction ts generalizing s with
  | nil => exact h
  | cons t rest ih =>
    rw [List.foldl_cons, animateStep_done h t]
    exact ih h

theorem foldl_animateStep_terminates {tr : Transition} {d : ℝ}
    (hd : 0 < d) {s : CamState} (h : InFlight tr d s) (ts : List ℝ)
    (hts : ∃ t ∈ ts, tr.startTime + d ≤ t) :
    DoneAt tr (ts.foldl animateStep s) := by
  induction ts generalizing s with
  | nil => simp at hts
  | cons t rest ih =>
    rw [List.foldl_cons]
    by_cases hterm : tr.startTime + d ≤ t
    · exact foldl_animateStep_done (animateStep_terminal hd h t hterm) rest
    · have hmem : ∃ u ∈ rest, tr.startTime + d ≤ u := by
        obtain ⟨u, hu, hule⟩ := hts
        rcases List.mem_cons.mp hu with rfl | humem
        · exact absurd hule hterm
        · exact ⟨u, humem, hule⟩
      rcases animateStep_cases h t with hin | hdone
      · exact ih hin hmem
      · exact foldl_animateStep_done hdone rest

theorem animateToPosition_start {s : CamState} (h : s.isAnimating = false)
    (P T : Vec3) (now : ℝ) :
    animateToPosition s P T now =
      (animateStep { s with isAnimating := true, followTarget := none,
                            transition := some ⟨s.cameraPos, s.target, P, T, now⟩ } now,
       false) := by
  unfold animateToPosition stopFollowing
  rw [h]
  simp

theorem animateToPosition_start_fields {s : CamState} (h : s.isAnimating = false)
    (P T : Vec3) (now : ℝ) :
    (animateToPosition s P T now).1.followTarget = none ∧
    (animateToPosition s P T now).1.isAnimating = true ∧
    (animateToPosition s P T now).1.transition
      = some ⟨s.cameraPos, s.target, P, T, now⟩ ∧
    (animateToPosition s P T now).1.animationDuration = s.animationDuration := by
  rw [animateToPosition_start h]
  rw [animateStep_some rfl now]
  split_ifs with hc
  · exact ⟨rfl, rfl, rfl, rfl⟩
  · exfalso
    apply hc
    norm_num [min_def]

theorem stateMid_eq :
    stateMid = { baseState with cameraPos := ⟨50, 0, 0⟩,
                                isAnimating := true, transition := some trA } := by
  have h1 : stateA = { baseState with isAnimating := true,
                                      transition := some trA } := by
    unfold stateA
    rw [animateToPosition_start rfl]
    rw [animateStep_some rfl 0]
    rw [if_pos (by norm_num [min_def, trA, baseState])]
    norm_num [baseState, trA, min_def, easeInOutCubic, lerpVectors]
  unfold stateMid
  rw [h1]
  rw [animateStep_some rfl 1000]
  rw [if_pos (by norm_num [min_def, trA, baseState])]
  norm_num [baseState, trA, min_def, easeInOutCubic, lerpVectors,
    CamState.mk.injEq, Vec3.mk.injEq]

theorem drain_spec (h : ℚ) (hh : 0 < h) :
    ∀ (n : ℕ) (acc : ℚ), 0 ≤ acc → (⌊acc / h⌋).toNat = n →
    drain h acc = (acc - h * ⌊acc / h⌋, (⌊acc / h⌋).toNat) := by
  intro n
  induction n with
  | zero =>
    intro acc hacc hn
    have hfl0 : (0 : ℤ) ≤ ⌊acc / h⌋ := Int.floor_nonneg.mpr (div_nonneg hacc hh.le)
    have hfl : ⌊acc / h⌋ = 0 := by omega
    have hlt : acc < h := by
      by_contra hc
      push_neg at hc
      have h1 : (1 : ℚ) ≤ acc / h := (one_le_div hh).mpr hc
      have h2 : (1 : ℤ) ≤ ⌊acc / h⌋ := by
        rw [Int.le_floor]
        exact_mod_cast h1
      omega
    rw [drain, dif_neg]
    · rw [hfl]
      simp
    · rintro ⟨-, hge⟩
      linarith
  | succ m ih =>
    intro acc hacc hn
    have hfl0 : (0 : ℤ) ≤ ⌊acc / h⌋ := Int.floor_nonneg.mpr (div_nonneg hacc hh.le)
    have hflm : ⌊acc / h⌋ = (m : ℤ) + 1 := by omega
    have hge : h ≤ acc := by
      have h1 : (1 : ℚ) ≤ acc / h := by
        rw [show (1 : ℚ) = ((1 : ℤ) : ℚ) by norm_num]
        refine le_trans ?_ (Int.floor_le (acc / h))
        exact_mod_cast by omega
      exact (one_le_div hh).mp h1
    have hsub : (acc - h) / h = acc / h - 1 := by field_simp
    have hfls : ⌊(acc - h) / h⌋ = ⌊acc / h⌋ - 1 := by
      rw [hsub, Int.floor_sub_one]
    have hrec := ih (acc - h) (by linarith) (by omega)
    rw [drain, dif_pos ⟨hh, hge⟩]
    simp only [hrec, Prod.mk.injEq]
    constructor
    · rw [hfls]
      push_cast
      ring
    · rw [hfls]
      omega

theorem gameLoopTick_spec (h : ℚ) (hh : 0 < h) (acc : ℚ) (n : ℕ) (d : ℚ)
    (hacc : 0 ≤ acc) (hd0 : 0 ≤ d) (hd50 : d ≤ 50) :
    gameLoopTick h (acc, n) d
      = (acc + d - h * ⌊(acc + d) / h⌋, n + (⌊(acc + d) / h⌋).toNat) := by
  simp only [gameLoopTick]
  rw [min_eq_left hd50]
  rw [drain_spec h hh (⌊(acc + d) / h⌋).toNat (acc + d) (by linarith) rfl]

theorem gameLoop_foldl (h : ℚ) (hh : 0 < h) :
    ∀ (deltas : List ℚ), (∀ d ∈ deltas, 0 ≤ d ∧ d ≤ 50) →
    ∀ (S : ℚ), 0 ≤ S → ∀ n : ℕ,
    deltas.foldl (gameLoopTick h) (S - h * ⌊S / h⌋, n)
      = (S + deltas.sum - h * ⌊(S + deltas.sum) / h⌋,
         n + ((⌊(S + deltas.sum) / h⌋).toNat - (⌊S / h⌋).toNat)) := by
  intro deltas
  induction deltas with
  | nil =>
    intro _ S hS n
    simp
  | cons d rest ih =>
    intro hb S hS n
    have hd0 : 0 ≤ d := (hb d (List.mem_cons_self d rest)).1
    have hd50 : d ≤ 50 := (hb d (List.mem_cons_self d rest)).2
    have hbr : ∀ x ∈ rest, 0 ≤ x ∧ x ≤ 50 := fun x hx => hb x (List.mem_cons_of_mem d hx)
    have hres0 : 0 ≤ S - h * ⌊S / h⌋ := by
      have h1 := Int.floor_le (S / h)
      have h2 : (⌊S / h⌋ : ℚ) * h ≤ (S / h) * h :=
        mul_le_mul_of_nonneg_right h1 hh.le
      rw [div_mul_cancel₀ S hh.ne'] at h2
      linarith
    have hshift : (S - h * ⌊S / h⌋ + d) / h = (S + d) / h - ⌊S / h⌋ := by
      field_simp
      ring
    have hfl : ⌊(S - h * ⌊S / h⌋ + d) / h⌋ = ⌊(S + d) / h⌋ - ⌊S / h⌋ := by
      rw [hshift, Int.floor_sub_int]
    rw [List.sum_cons, List.foldl_cons]
    rw [gameLoopTick_spec h hh _ n d hres0 hd0 hd50]
    have harg : S - h * ⌊S / h⌋ + d - h * ⌊(S - h * ⌊S / h⌋ + d) / h⌋
        = S + d - h * ⌊(S + d) / h⌋ := by
      rw [hfl]
      push_cast
      ring
    rw [harg, hfl]
    rw [ih hbr (S + d) (by linarith) (n + (⌊(S + d) / h⌋ - ⌊S / h⌋).toNat)]
    have hnorm : S + (d + rest.sum) = S + d + rest.sum := by ring
    rw [hnorm]
    have hsum0 : 0 ≤ rest.sum := List.sum_nonneg (fun x hx => (hbr x hx).1)
    have hB0 : (0 : ℤ) ≤ ⌊S / h⌋ := Int.floor_nonneg.mpr (div_nonneg hS hh.le)
    have hm1 : ⌊S / h⌋ ≤ ⌊(S + d) / h⌋ :=
      Int.floor_le_floor ((div_le_div_iff_of_pos_right hh).mpr (by linarith))
    have hm2 : ⌊(S + d) / h⌋ ≤ ⌊(S + d + rest.sum) / h⌋ :=
      Int.floor_le_floor ((div_le_div_iff_of_pos_right hh).mpr (by linarith))
    simp only [Prod.mk.injEq]
    exact ⟨trivial, by omega⟩

theorem deselect_spec (s : SceneState)
    (hinv : ∀ j, s.isSelected j = true ↔ s.selectedPlanet = some j) :
    (SpaceScene.deselectPlanet s).selectedPlanet = none ∧
    (∀ j, (SpaceScene.deselectPlanet s).isSelected j = false) := by
  obtain ⟨n, sel, flags⟩ := s
  cases sel with
  | none =>
    refine ⟨rfl, fun j => ?_⟩
    simp only [SpaceScene.deselectPlanet]
    by_contra hj
    have hj' : flags j = true := by
      revert hj
      cases flags j <;> simp
    have := (hinv j).mp hj'
    simp at this
  | some i =>
    refine ⟨rfl, fun j => ?_⟩
    simp only [SpaceScene.deselectPlanet, SpaceScene.setSelected]
    by_cases hji : j = i
    · simp [hji]
    · simp only [if_neg hji]
      by_contra hj
      have hj' : flags j = true := by
        revert hj
        cases flags j <;> simp
      have := (hinv j).mp hj'
      simp at this
      exact hji this.symm

/-! ### Claim theorems -/

/-- C1 (counterexample): with transition `trA` (to end position `(100,0,0)`)
mid-flight — camera at the interpolated pose `(50,0,0)` — a new request
`animateToPosition (0,0,200)` does NOT preempt it: the call leaves the
controller state completely unchanged and resolves immediately, and the
in-flight transition later finishes at its own end pose `(100,0,0)`, not at
the new request's end pose `(0,0,200)`. -/
theorem preemption_counterexample :
    stateMid.cameraPos = ⟨50, 0, 0⟩ ∧
    animateToPosition stateMid ⟨0, 0, 200⟩ ⟨0, 0, 0⟩ 1000 = (stateMid, true) ∧
    (animateStep stateMid 2000).cameraPos = ⟨100, 0, 0⟩ ∧
    (animateStep stateMid 2000).isAnimating = false ∧
    (animateStep stateMid 2000).cameraPos ≠ ⟨0, 0, 200⟩ := by
  have hia : stateMid.isAnimating = true := by rw [stateMid_eq]
  have htr : stateMid.transition = some trA := by rw [stateMid_eq]
  have had : stateMid.animationDuration = 2000 := by
    rw [stateMid_eq]
    rfl
  have hdone : DoneAt trA (animateStep stateMid 2000) := by
    apply animateStep_terminal (show (0 : ℝ) < 2000 by norm_num) ⟨htr, hia, had⟩
    norm_num [trA]
  refine ⟨by rw [stateMid_eq], ?_, ?_, hdone.2.2.1, ?_⟩
  · unfold animateToPosition
    rw [hia]
    simp
  · rw [hdone.1]
    rfl
  · rw [hdone.1]
    norm_num [trA, Vec3.mk.injEq]

/-- C1 (amended): a transition request issued while another transition is in
flight does not preempt it — the request is ignored: the camera stays at the
in-flight transition's currently-interpolated pose, the stored transition
(start and end poses) is untouched, and the request's promise resolves
immediately. -/
theorem animate_request_midflight_not_preempting (s : CamState) (P T : Vec3)
    (now : ℝ) (h : s.isAnimating = true) :
    (animateToPosition s P T now).1.cameraPos = s.cameraPos ∧
    (animateToPosition s P T now).1.target = s.target ∧
    (animateToPosition s P T now).1.transition = s.transition ∧
    (animateToPosition s P T now).2 = true := by
  have h1 : animateToPosition s P T now = (s, true) := by
    unfold animateToPosition
    rw [h]
    simp
  rw [h1]
  exact ⟨rfl, rfl, rfl, rfl⟩

/-- C1 (witness): the amended claim instantiated at the concrete mid-flight
state `stateMid`. -/
theorem animate_request_midflight_not_preempting_witness :
    stateMid.isAnimating = true ∧
    ((animateToPosition stateMid ⟨0, 0, 200⟩ ⟨0, 0, 0⟩ 1000).1.cameraPos
        = stateMid.cameraPos ∧
     (animateToPosition stateMid ⟨0, 0, 200⟩ ⟨0, 0, 0⟩ 1000).1.transition
        = stateMid.transition ∧
     (animateToPosition stateMid ⟨0, 0, 200⟩ ⟨0, 0, 0⟩ 1000).2 = true) := by
  have hia : stateMid.isAnimating = true := by rw [stateMid_eq]
  have hthm := animate_request_midflight_not_preempting stateMid
    ⟨0, 0, 200⟩ ⟨0, 0, 0⟩ 1000 hia
  exact ⟨hia, hthm.1, hthm.2.2.1, hthm.2.2.2⟩

/-- C2 (counterexample): calling `followObject` while a transition is in
flight does not clear the `Transitioning` flag — the reachable state after
`animateToPosition` followed by `followObject` has a follow target bound and
`isAnimating` still `true`, refuting the mutual-exclusion invariant. -/
theorem follow_during_transition_both_flags :
    ((followObject (animateToPosition baseState ⟨100, 0, 0⟩ ⟨0, 0, 0⟩ 0).1 7 none).followTarget
        = some 7) ∧
    ((followObject (animateToPosition baseState ⟨100, 0, 0⟩ ⟨0, 0, 0⟩ 0).1 7 none).isAnimating
        = true) := by
  constructor
  · simp [followObject]
  · simp [followObject, animateToPosition, baseState, stopFollowing, animateStep]

/-- C2 (amended): starting a transition via `animateToPosition` clears the
follow target, but `followObject` does not cancel an in-flight transition:
it leaves `isAnimating` unchanged while binding the follow target, so both
can hold simultaneously. -/
theorem follow_transition_exclusion (s : CamState) :
    (∀ (P T : Vec3) (now : ℝ), s.isAnimating = false →
      (animateToPosition s P T now).1.followTarget = none ∧
      (animateToPosition s P T now).1.isAnimating = true) ∧
    (∀ (tgt : ℕ) (off : Option Vec3),
      (followObject s tgt off).isAnimating = s.isAnimating ∧
      (followObject s tgt off).followTarget = some tgt) := by
  constructor
  · intro P T now h
    have hf := animateToPosition_start_fields h P T now
    exact ⟨hf.1, hf.2.1⟩
  · intro tgt off
    exact ⟨rfl, rfl⟩

/-- C2 (witness): the amended claim instantiated at `baseState`. -/
theorem follow_transition_exclusion_witness :
    baseState.isAnimating = false ∧
    ((animateToPosition baseState ⟨0, 20, 50⟩ ⟨0, 0, 0⟩ 0).1.followTarget = none ∧
     (animateToPosition baseState ⟨0, 20, 50⟩ ⟨0, 0, 0⟩ 0).1.isAnimating = true) ∧
    ((followObject baseState 3 none).isAnimating = baseState.isAnimating ∧
     (followObject baseState 3 none).followTarget = some 3) :=
  ⟨rfl, (follow_transition_exclusion baseState).1 ⟨0, 20, 50⟩ ⟨0, 0, 0⟩ 0 rfl,
   (follow_transition_exclusion baseState).2 3 none⟩

/-- C3 (code bug): `getWASDState` returns an object keyed `w`/`a`/`s`/`d`,
but `updateWASDMovement` reads the properties `forward`/`backward`/`left`/
`right` of that object, which do not exist and are therefore falsy whatever
keys are held; consequently holding only the `W` key produces no camera
movement at all — the WASD keys are dead. -/
theorem wasd_keys_dropped :
    (∀ keys : String → Bool,
      getWASDState keys "forward" = false ∧ getWASDState keys "backward" = false ∧
      getWASDState keys "left" = false ∧ getWASDState keys "right" = false) ∧
    (∀ (s : CamState) (q : Quat) (dt : ℝ), updateWASDMovement s q keyWOnly dt = s) := by
  constructor
  · intro keys
    exact ⟨rfl, rfl, rfl, rfl⟩
  · intro s q dt
    have hdir : wasdDirection q keyWOnly = ⟨0, 0, 0⟩ := rfl
    have hlen : vlength ⟨0, 0, 0⟩ = 0 := by
      simp [vlength]
    unfold updateWASDMovement
    simp [hdir, hlen]

/-- C4: the orbit-group position after any sequence of `Planet.update` steps
whose last update carries total time `t` is the pure function
`(r·cos(w·t), 0, r·sin(w·t))` of `t` alone (path independence); with
`r = 45`, `w = 0.01` it is `(45,0,0)` at `t = 0` and `(0,0,45)` at the
quarter period `t = (π/0.01)/2`. -/
theorem orbital_position_absolute (cfg : PlanetConfig) (o : Orbit)
    (ho : cfg.orbit = some o) (s : PlanetState) (steps : List (ℝ × ℝ))
    (lastStep : ℝ × ℝ) :
    ((steps ++ [lastStep]).foldl
        (fun st p => Planet.update cfg st p.1 p.2) s).orbitPos
      = orbitalPosition o lastStep.2 ∧
    orbitalPosition ⟨45, 1 / 100⟩ 0 = ⟨45, 0, 0⟩ ∧
    orbitalPosition ⟨45, 1 / 100⟩ (Real.pi / (1 / 100) / 2) = ⟨0, 0, 45⟩ := by
  obtain ⟨rate, orb⟩ := cfg
  simp only at ho
  subst ho
  refine ⟨?_, ?_, ?_⟩
  · rw [List.foldl_append]
    simp only [List.foldl_cons, List.foldl_nil]
    rfl
  · unfold orbitalPosition
    norm_num
  · have harg : Real.pi / (1 / 100) / 2 * (⟨45, 1 / 100⟩ : Orbit).speed
        = Real.pi / 2 := by
      show Real.pi / (1 / 100) / 2 * (1 / 100) = Real.pi / 2
      ring
    unfold orbitalPosition
    rw [harg, Real.cos_pi_div_two, Real.sin_pi_div_two]
    norm_num

/-- C4 (witness): the path-independence theorem instantiated at a concrete
two-step run of a planet with orbit radius 45 and speed 0.01. -/
theorem orbital_position_absolute_witness :
    ((⟨⟨0, 1 / 100, 0⟩, some ⟨45, 1 / 100⟩⟩ : PlanetConfig).orbit
        = some ⟨45, 1 / 100⟩) ∧
    ((([((1 : ℝ), (1 : ℝ))] ++ [((1 : ℝ), (2 : ℝ))]).foldl
        (fun st p => Planet.update ⟨⟨0, 1 / 100, 0⟩, some ⟨45, 1 / 100⟩⟩ st p.1 p.2)
        ⟨⟨0, 0, 0⟩, ⟨45, 0, 0⟩, 0⟩).orbitPos
      = orbitalPosition ⟨45, 1 / 100⟩ (((1 : ℝ), (2 : ℝ)).2) ∧
     orbitalPosition ⟨45, 1 / 100⟩ 0 = ⟨45, 0, 0⟩ ∧
     orbitalPosition ⟨45, 1 / 100⟩ (Real.pi / (1 / 100) / 2) = ⟨0, 0, 45⟩) :=
  ⟨rfl, orbital_position_absolute ⟨⟨0, 1 / 100, 0⟩, some ⟨45, 1 / 100⟩⟩
    ⟨45, 1 / 100⟩ rfl ⟨⟨0, 0, 0⟩, ⟨45, 0, 0⟩, 0⟩ [((1 : ℝ), (1 : ℝ))]
    ((1 : ℝ), (2 : ℝ))⟩

/-- C5: for any sequence of raw frame deltas, each nonnegative and at most
the 50 ms clamp, the game loop invokes the fixed-step update callback
exactly `⌊S / h⌋` times where `S` is the total delta and `h` the fixed frame
time — in particular within one step of `⌊S / h⌋` and independent of how `S`
is chunked across the individual frame callbacks. -/
theorem gameLoop_fixed_step_count (h : ℚ) (hh : 0 < h) (deltas : List ℚ)
    (hb : ∀ d ∈ deltas, 0 ≤ d ∧ d ≤ 50) :
    ((deltas.foldl (gameLoopTick h) (0, 0)).2 = (⌊deltas.sum / h⌋).toNat) ∧
    (∀ deltas2 : List ℚ, (∀ d ∈ deltas2, 0 ≤ d ∧ d ≤ 50) → deltas2.sum = deltas.sum →
      (deltas2.foldl (gameLoopTick h) (0, 0)).2
        = (deltas.foldl (gameLoopTick h) (0, 0)).2) := by
  have main : ∀ (ds : List ℚ), (∀ d ∈ ds, 0 ≤ d ∧ d ≤ 50) →
      (ds.foldl (gameLoopTick h) (0, 0)).2 = (⌊ds.sum / h⌋).toNat := by
    intro ds hds
    have h0 : ((0 : ℚ) - h * ⌊(0 : ℚ) / h⌋, (0 : ℕ)) = ((0 : ℚ), (0 : ℕ)) := by
      norm_num
    have hmain := gameLoop_foldl h hh ds hds 0 le_rfl 0
    rw [h0] at hmain
    rw [hmain]
    norm_num
  refine ⟨main deltas hb, ?_⟩
  intro ds2 hb2 hsum
  rw [main ds2 hb2, main deltas hb, hsum]

/-- C5 (witness): two 16 ms frames with a 16 ms fixed step take exactly
⌊32/16⌋ = 2 logic steps. -/
theorem gameLoop_fixed_step_count_witness :
    (0 : ℚ) < 16 ∧ (∀ d ∈ [(16 : ℚ), 16], 0 ≤ d ∧ d ≤ 50) ∧
    (([(16 : ℚ), 16].foldl (gameLoopTick 16) (0, 0)).2
      = (⌊([(16 : ℚ), 16].sum) / 16⌋).toNat) := by
  have hh : (0 : ℚ) < 16 := by norm_num
  have hb : ∀ d ∈ [(16 : ℚ), 16], 0 ≤ d ∧ d ≤ 50 := by
    intro d hd
    rcases List.mem_cons.mp hd with rfl | hd2
    · norm_num
    · rcases List.mem_cons.mp hd2 with rfl | hd3
      · norm_num
      · simp at hd3
  exact ⟨hh, hb, (gameLoop_fixed_step_count 16 hh [(16 : ℚ), 16] hb).1⟩

/-- C6: a transition started by `animateToPosition` toward end position `P`
and end look-target `T`, once some animation frame runs at or after
`start + animationDuration`, terminates with the camera exactly at `P`, the
orbit-controls target exactly at `T`, and `isAnimating = false`, regardless
of the timing of the intermediate animation frames. -/
theorem transition_termination (s : CamState) (P T : Vec3) (now : ℝ)
    (ts : List ℝ) (h0 : s.isAnimating = false) (hd : 0 < s.animationDuration)
    (hts : ∃ t ∈ ts, now + s.animationDuration ≤ t) :
    (ts.foldl animateStep (animateToPosition s P T now).1).cameraPos = P ∧
    (ts.foldl animateStep (animateToPosition s P T now).1).target = T ∧
    (ts.foldl animateStep (animateToPosition s P T now).1).isAnimating = false := by
  rw [animateToPosition_start h0]
  have hs2 : InFlight ⟨s.cameraPos, s.target, P, T, now⟩ s.animationDuration
      { s with isAnimating := true, followTarget := none,
               transition := some ⟨s.cameraPos, s.target, P, T, now⟩ } :=
    ⟨rfl, rfl, rfl⟩
  have hts' : ∃ t ∈ ts,
      (⟨s.cameraPos, s.target, P, T, now⟩ : Transition).startTime
        + s.animationDuration ≤ t := hts
  rcases animateStep_cases hs2 now with hin | hdone
  · have hfin := foldl_animateStep_terminates hd hin ts hts'
    exact ⟨hfin.1, hfin.2.1, hfin.2.2.1⟩
  · have hfin := foldl_animateStep_done hdone ts
    exact ⟨hfin.1, hfin.2.1, hfin.2.2.1⟩

/-- C6 (witness): the termination theorem instantiated on `baseState` with
frames at 1000 ms and 2000 ms of a 2000 ms transition to the `sun` preset
pose. -/
theorem transition_termination_witness :
    baseState.isAnimating = false ∧
    (0 : ℝ) < baseState.animationDuration ∧
    (∃ t ∈ [(1000 : ℝ), 2000], (0 : ℝ) + baseState.animationDuration ≤ t) ∧
    (([(1000 : ℝ), 2000].foldl animateStep
        (animateToPosition baseState ⟨0, 20, 50⟩ ⟨0, 0, 0⟩ 0).1).cameraPos
      = ⟨0, 20, 50⟩ ∧
     ([(1000 : ℝ), 2000].foldl animateStep
        (animateToPosition baseState ⟨0, 20, 50⟩ ⟨0, 0, 0⟩ 0).1).target
      = ⟨0, 0, 0⟩ ∧
     ([(1000 : ℝ), 2000].foldl animateStep
        (animateToPosition baseState ⟨0, 20, 50⟩ ⟨0, 0, 0⟩ 0).1).isAnimating
      = false) := by
  have hd : (0 : ℝ) < baseState.animationDuration := by norm_num [baseState]
  have hts : ∃ t ∈ [(1000 : ℝ), 2000], (0 : ℝ) + baseState.animationDuration ≤ t := by
    refine ⟨2000, by simp, by norm_num [baseState]⟩
  exact ⟨rfl, hd, hts,
    transition_termination baseState ⟨0, 20, 50⟩ ⟨0, 0, 0⟩ 0 [(1000 : ℝ), 2000] rfl hd hts⟩

/-- C7: on a pointer click with the (nearest-first sorted) intersection
list: a nonempty list makes the planet owning the nearest hit the sole
selected planet (its distance is minimal among all hits, its flag is the
only one set, the previous selection is cleared), and an empty list clears
the selection entirely. -/
theorem click_selection (s : SceneState) (hits : List Hit)
    (hsorted : List.Sorted (fun a b : Hit => a.distance ≤ b.distance) hits)
    (hvalid : ∀ h ∈ hits, h.object < s.numPlanets)
    (hinv : ∀ j, s.isSelected j = true ↔ s.selectedPlanet = some j) :
    (∀ (hit : Hit) (rest : List Hit), hits = hit :: rest →
      ((SpaceScene.onMouseClick s hits).selectedPlanet = some hit.object ∧
       (∀ h ∈ hits, hit.distance ≤ h.distance) ∧
       (∀ j, (SpaceScene.onMouseClick s hits).isSelected j = true ↔ j = hit.object))) ∧
    (hits = [] →
      ((SpaceScene.onMouseClick s hits).selectedPlanet = none ∧
       ∀ j, (SpaceScene.onMouseClick s hits).isSelected j = false)) := by
  constructor
  · rintro hit rest rfl
    have hlt : hit.object < s.numPlanets := hvalid hit (List.mem_cons_self hit rest)
    have hclick : SpaceScene.onMouseClick s (hit :: rest)
        = SpaceScene.selectPlanet s hit.object := by
      simp only [SpaceScene.onMouseClick, if_pos hlt]
    have hdes := deselect_spec s hinv
    refine ⟨?_, ?_, ?_⟩
    · rw [hclick]
      rfl
    · intro h hh
      rcases List.mem_cons.mp hh with rfl | hmem
      · exact le_refl _
      · exact (List.sorted_cons.mp hsorted).1 h hmem
    · intro j
      rw [hclick]
      simp only [SpaceScene.selectPlanet, SpaceScene.setSelected]
      by_cases hji : j = hit.object
      · simp [hji]
      · simp only [if_neg hji]
        rw [hdes.2 j]
        simp [hji]
  · rintro rfl
    have hdes := deselect_spec s hinv
    exact ⟨hdes.1, hdes.2⟩

/-- C7 (witness): a three-planet scene with planet 0 selected; a click whose
sorted hits are planet 1 at distance 5 and planet 2 at distance 7 selects
exactly planet 1. -/
theorem click_selection_witness :
    List.Sorted (fun a b : Hit => a.distance ≤ b.distance) [⟨1, 5⟩, ⟨2, 7⟩] ∧
    (∀ h ∈ [(⟨1, 5⟩ : Hit), ⟨2, 7⟩],
      h.object < (⟨3, some 0, fun j => j == 0⟩ : SceneState).numPlanets) ∧
    (∀ j, (⟨3, some 0, fun j => j == 0⟩ : SceneState).isSelected j = true ↔
      (⟨3, some 0, fun j => j == 0⟩ : SceneState).selectedPlanet = some j) ∧
    ((SpaceScene.onMouseClick ⟨3, some 0, fun j => j == 0⟩
        [⟨1, 5⟩, ⟨2, 7⟩]).selectedPlanet = some 1 ∧
     (∀ j, (SpaceScene.onMouseClick ⟨3, some 0, fun j => j == 0⟩
        [⟨1, 5⟩, ⟨2, 7⟩]).isSelected j = true ↔ j = 1)) := by
  have hsorted : List.Sorted (fun a b : Hit => a.distance ≤ b.distance)
      [⟨1, 5⟩, ⟨2, 7⟩] := by
    apply List.sorted_cons.mpr
    constructor
    · intro b hb
      rw [List.mem_singleton] at hb
      subst hb
      show (5 : ℝ) ≤ 7
      norm_num
    · exact List.sorted_singleton _
  have hvalid : ∀ h ∈ [(⟨1, 5⟩ : Hit), ⟨2, 7⟩],
      h.object < (⟨3, some 0, fun j => j == 0⟩ : SceneState).numPlanets := by
    intro h hh
    rcases List.mem_cons.mp hh with rfl | hh2
    · norm_num
    · rcases List.mem_cons.mp hh2 with rfl | hh3
      · norm_num
      · simp at hh3
  have hinv : ∀ j, (⟨3, some 0, fun j => j == 0⟩ : SceneState).isSelected j = true ↔
      (⟨3, some 0, fun j => j == 0⟩ : SceneState).selectedPlanet = some j := by
    intro j
    show (j == 0) = true ↔ (some 0 : Option ℕ) = some j
    simp only [beq_iff_eq]
    exact ⟨fun hj => by rw [hj], fun hj => (Option.some.inj hj).symm⟩
  have hthm := click_selection ⟨3, some 0, fun j => j == 0⟩ [⟨1, 5⟩, ⟨2, 7⟩]
    hsorted hvalid hinv
  have hmain := hthm.1 ⟨1, 5⟩ [⟨2, 7⟩] rfl
  exact ⟨hsorted, hvalid, hinv, hmain.1, hmain.2.2⟩

/-- C8 (counterexample): `"toString"` is not present in the default preset
map, yet `animateToPreset` with it is not a no-op with a reported warning:
the value inherited from `Object.prototype` is truthy, so the warning branch
is skipped and the call throws a TypeError instead (rejected promise, no
warning), though the state is left unchanged. -/
theorem preset_prototype_counterexample :
    findPreset "toString" baseState.presets = none ∧
    animateToPreset baseState "toString" 0 = (baseState, PresetOutcome.typeError) ∧
    (baseState, PresetOutcome.typeError) ≠ (baseState, PresetOutcome.warned) := by
  refine ⟨rfl, rfl, ?_⟩
  simp

/-- C8 (amended): for every name that is neither an own key of the preset
map nor a property name inherited from `Object.prototype`, `animateToPreset`
is a no-op with a reported warning — the whole controller state is returned
unchanged; for a non-key name that is inherited from `Object.prototype`, the
warning branch is skipped and the call instead throws a TypeError (rejected
promise), still with the state returned unchanged. -/
theorem animateToPreset_unknown_outcome (s : CamState) (name : String) (now : ℝ)
    (h : findPreset name s.presets = none) :
    (name ∉ objectPrototypeKeys →
      animateToPreset s name now = (s, PresetOutcome.warned)) ∧
    (name ∈ objectPrototypeKeys →
      animateToPreset s name now = (s, PresetOutcome.typeError)) := by
  constructor
  · intro hmem
    have hidx : presetIndex name s.presets = PresetValue.undef := by
      unfold presetIndex
      rw [h]
      simp [hmem]
    unfold animateToPreset
    rw [hidx]
  · intro hmem
    have hidx : presetIndex name s.presets = PresetValue.protoFn := by
      unfold presetIndex
      rw [h]
      simp [hmem]
    unfold animateToPreset
    rw [hidx]

/-- C8 (witness): `"mars"` — neither a preset key nor inherited — is a
warned no-op on the default preset table, and `"toString"` — not a preset
key but inherited — throws a TypeError, both via the amended theorem. -/
theorem animateToPreset_unknown_outcome_witness :
    findPreset "mars" baseState.presets = none ∧
    "mars" ∉ objectPrototypeKeys ∧
    animateToPreset baseState "mars" 0 = (baseState, PresetOutcome.warned) ∧
    findPreset "toString" baseState.presets = none ∧
    "toString" ∈ objectPrototypeKeys ∧
    animateToPreset baseState "toString" 0 = (baseState, PresetOutcome.typeError) := by
  have h1 : findPreset "mars" baseState.presets = none := rfl
  have h2 : "mars" ∉ objectPrototypeKeys := by decide
  have h3 : findPreset "toString" baseState.presets = none := rfl
  have h4 : "toString" ∈ objectPrototypeKeys := by decide
  exact ⟨h1, h2, (animateToPreset_unknown_outcome baseState "mars" 0 h1).1 h2,
         h3, h4, (animateToPreset_unknown_outcome baseState "toString" 0 h3).2 h4⟩

/-- C9: when the composed movement direction is the zero vector (no
direction key contributes), `updateWASDMovement` leaves the whole controller
state — camera position and orbit-controls target included — unchanged; the
zero-length guard means the vector is never normalized. -/
theorem wasd_zero_direction_no_move (s : CamState) (q : Quat)
    (keys : String → Bool) (dt : ℝ) (h : wasdDirection q keys = ⟨0, 0, 0⟩) :
    updateWASDMovement s q keys dt = s := by
  have hlen : vlength ⟨0, 0, 0⟩ = 0 := by
    simp [vlength]
  unfold updateWASDMovement
  simp [h, hlen]

/-- C9 (witness): with no key held the composed direction is zero and the
movement step is the identity on `baseState`. -/
theorem wasd_zero_direction_no_move_witness :
    wasdDirection ⟨0, 0, 0, 1⟩ noKeys = ⟨0, 0, 0⟩ ∧
    updateWASDMovement baseState ⟨0, 0, 0, 1⟩ noKeys 1 = baseState :=
  ⟨rfl, wasd_zero_direction_no_move baseState ⟨0, 0, 0, 1⟩ noKeys 1 rfl⟩

/-- C10: calling `animateToPosition` while `isAnimating` is already true
returns a promise that resolves immediately and changes nothing — the full
controller state, including the running transition's start and end poses, is
untouched — and the earlier transition still runs to completion at its own
end pose. -/
theorem animate_during_animation_noop (s : CamState) (P T : Vec3) (now : ℝ)
    (h : s.isAnimating = true) :
    animateToPosition s P T now = (s, true) ∧
    (∀ tr : Transition, s.transition = some tr → 0 < s.animationDuration →
      ∀ ts : List ℝ, (∃ t ∈ ts, tr.startTime + s.animationDuration ≤ t) →
        (ts.foldl animateStep (animateToPosition s P T now).1).cameraPos
          = tr.endPosition ∧
        (ts.foldl animateStep (animateToPosition s P T now).1).target
          = tr.endTarget ∧
        (ts.foldl animateStep (animateToPosition s P T now).1).isAnimating
          = false) := by
  have h1 : animateToPosition s P T now = (s, true) := by
    unfold animateToPosition
    rw [h]
    simp
  refine ⟨h1, ?_⟩
  intro tr htr hd ts hts
  rw [h1]
  have hfin := foldl_animateStep_terminates hd ⟨htr, h, rfl⟩ ts hts
  exact ⟨hfin.1, hfin.2.1, hfin.2.2.1⟩

/-- C10 (witness): the no-op behaviour instantiated at the concrete
mid-flight state `stateMid` of transition `trA`, which still finishes at
`trA`'s end pose. -/
theorem animate_during_animation_noop_witness :
    stateMid.isAnimating = true ∧
    stateMid.transition = some trA ∧
    (0 : ℝ) < stateMid.animationDuration ∧
    (∃ t ∈ [(2000 : ℝ)], trA.startTime + stateMid.animationDuration ≤ t) ∧
    animateToPosition stateMid ⟨0, 0, 200⟩ ⟨0, 0, 0⟩ 1000 = (stateMid, true) ∧
    (([(2000 : ℝ)].foldl animateStep
        (animateToPosition stateMid ⟨0, 0, 200⟩ ⟨0, 0, 0⟩ 1000).1).cameraPos
      = trA.endPosition ∧
     ([(2000 : ℝ)].foldl animateStep
        (animateToPosition stateMid ⟨0, 0, 200⟩ ⟨0, 0, 0⟩ 1000).1).isAnimating
      = false) := by
  have hia : stateMid.isAnimating = true := by rw [stateMid_eq]
  have htr : stateMid.transition = some trA := by rw [stateMid_eq]
  have had : (0 : ℝ) < stateMid.animationDuration := by
    rw [stateMid_eq]
    norm_num [baseState]
  have hts : ∃ t ∈ [(2000 : ℝ)], trA.startTime + stateMid.animationDuration ≤ t := by
    refine ⟨2000, by simp, ?_⟩
    rw [stateMid_eq]
    norm_num [trA, baseState]
  have hthm := animate_during_animation_noop stateMid ⟨0, 0, 200⟩ ⟨0, 0, 0⟩ 1000 hia
  have hrun := hthm.2 trA htr had [(2000 : ℝ)] hts
  exact ⟨hia, htr, had, hts, hthm.1, hrun.1, hrun.2.2⟩

end ThreeTemplate
